import Mathlib

/-!
# Webscrapper Buddy — formal model of the core pipeline

A shallow embedding of the repository's core functions:

* `scrape.py`: `scrape_website`, `clean_body_content`, `split_dom_content`;
* `parse_llm.py`: `parse_with_llm`;
* `main.py`: `try_to_dataframe` and the caller-side classification of
  `scrape_website` results;
* `advance_scrape.py`: `generic_fetch` and the per-provider fetch helpers.

Python strings are modelled as Lean `String`/`List Char`; network calls are
modelled by explicit oracle parameters (a result per request), so that a
function's independence from the oracle expresses "no network request is
issued".  Python exceptions are modelled with `Except String`/`Option`
(`.error`/`none` = the call raised); the error payload stands for `str(e)`.
-/

namespace WebscrapperBuddy

/-! ## Python string primitives

Models of the Python `str` operations the sources use: `strip()`,
`splitlines()`, `split()` (whitespace), `"\n".join(...)`, substring
containment.  `splitlines` is modelled on the `'\n'` separator only (the one
the pipeline itself introduces); `strip`/`split` use the ASCII whitespace
characters Python treats as such.
-/

/-- The ASCII whitespace characters of Python's `str.strip()` / `str.split()`. -/
def isPyWs (c : Char) : Bool :=
  c = ' ' || c = '\t' || c = '\n' || c = '\r' || c = '\x0b' || c = '\x0c'

/-- `str.strip()` on a character list: drop leading and trailing whitespace. -/
def stripChars (cs : List Char) : List Char :=
  ((cs.dropWhile isPyWs).reverse.dropWhile isPyWs).reverse

/-- `str.strip()`. -/
def pyStrip (s : String) : String := ⟨stripChars s.data⟩

/-- Split a character list at every `'\n'` (keeping empty segments). -/
def splitOnNl : List Char → List (List Char)
  | [] => [[]]
  | c :: rest =>
    if c = '\n' then [] :: splitOnNl rest
    else
      match splitOnNl rest with
      | l :: ls => (c :: l) :: ls
      | [] => [[c]]

/-- `str.splitlines()`: like splitting on `'\n'`, except that the segment
after a trailing newline is omitted (so `"".splitlines() = []`). -/
def pySplitlines (cs : List Char) : List (List Char) :=
  let parts := splitOnNl cs
  if parts.getLast? = some [] then parts.dropLast else parts

/-- `[l.strip() for l in s.splitlines() if l.strip()]` — the line-normalizing
comprehension shared by `clean_body_content` (scrape.py) and
`try_to_dataframe` (main.py). -/
def linesOf (cs : List Char) : List (List Char) :=
  ((pySplitlines cs).map stripChars).filter (· ≠ [])

/-- `"\n".join(...)` on character lists. -/
def joinNl : List (List Char) → List Char
  | [] => []
  | [l] => l
  | l :: ls => l ++ '\n' :: joinNl ls

/-- Does `needle` occur as a contiguous sublist of `hay`? -/
def hasSub : List Char → List Char → Bool
  | _, [] => true
  | [], _ :: _ => false
  | h :: hs, n :: ns => ((n :: ns).isPrefixOf (h :: hs)) || hasSub hs (n :: ns)

/-- Python `needle in hay` substring containment. -/
def containsSub (hay needle : String) : Bool :=
  hasSub hay.data needle.data

/-- Python `s.startswith(pre)`. -/
def pyStartswith (s pre : String) : Bool :=
  pre.data.isPrefixOf s.data

/-- Python `s.lower()` (ASCII case folding, the only case the sources use). -/
def pyLower (s : String) : String := ⟨s.data.map Char.toLower⟩

/-! ## Chunker — `split_dom_content` (scrape.py)

```python
def split_dom_content(dom_content, max_length=6000):
    return [
        dom_content[i:i + max_length]
        for i in range(0, len(dom_content), max_length)
    ]
```

The comprehension walks `i = 0, L, 2L, ...` while `i < len(dom_content)`,
taking the slice `dom_content[i:i+L]` each time; equivalently, it repeatedly
takes the first `max_length` characters of the remaining document.  (With
`max_length = 0`, Python's `range` raises `ValueError`; the guard below keeps
the Lean function total, and every theorem assumes `0 < max_length`.)
-/

/-- The slicing loop of `split_dom_content`, with a fuel argument (any
`fuel ≥ length` behaves the same; `split_dom_content` passes the document's
length) so that the definition is structurally recursive and computable by
the kernel. -/
def splitDomGo (L : Nat) : Nat → List Char → List (List Char)
  | _, [] => []
  | 0, _ :: _ => []
  | fuel + 1, c :: cs => ((c :: cs).take L) :: splitDomGo L fuel ((c :: cs).drop L)

def split_dom_content (dom_content : List Char) (max_length : Nat) : List (List Char) :=
  if max_length = 0 then [] else splitDomGo max_length dom_content.length dom_content

theorem splitDomGo_nil (L fuel : Nat) : splitDomGo L fuel [] = [] := by
  cases fuel <;> rfl

theorem splitDomGo_fuel {L : Nat} (hL : L ≠ 0) :
    ∀ f₁ (doc : List Char), doc.length ≤ f₁ → ∀ f₂, doc.length ≤ f₂ →
      splitDomGo L f₁ doc = splitDomGo L f₂ doc := by
  intro f₁
  induction f₁ with
  | zero =>
    intro doc h₁ f₂ _
    have : doc = [] := List.eq_nil_of_length_eq_zero (Nat.le_zero.mp h₁)
    subst this
    simp [splitDomGo_nil]
  | succ k ih =>
    intro doc h₁ f₂ h₂
    match doc, f₂ with
    | [], _ => simp [splitDomGo_nil]
    | c :: cs, 0 => simp at h₂
    | c :: cs, m + 1 =>
      show ((c :: cs).take L) :: splitDomGo L k ((c :: cs).drop L) =
        ((c :: cs).take L) :: splitDomGo L m ((c :: cs).drop L)
      have hlen : ((c :: cs).drop L).length ≤ k := by
        simp only [List.length_drop, List.length_cons] at *
        omega
      have hlen' : ((c :: cs).drop L).length ≤ m := by
        simp only [List.length_drop, List.length_cons] at *
        omega
      rw [ih _ hlen _ hlen']

theorem split_dom_content_nil (L : Nat) : split_dom_content [] L = [] := by
  unfold split_dom_content
  cases Nat.decEq L 0 <;> simp [splitDomGo_nil]

theorem split_dom_content_cons {doc : List Char} {L : Nat} (hL : L ≠ 0) (hd : doc ≠ []) :
    split_dom_content doc L = doc.take L :: split_dom_content (doc.drop L) L := by
  unfold split_dom_content
  rw [if_neg hL, if_neg hL]
  match doc, hd with
  | c :: cs, _ =>
    show ((c :: cs).take L) :: splitDomGo L cs.length ((c :: cs).drop L) = _
    congr 1
    apply splitDomGo_fuel hL
    · simp only [List.length_drop, List.length_cons]; omega
    · exact le_rfl

/-- Concatenating the chunks restores the document. -/
theorem split_dom_content_join (L : Nat) (hL : 0 < L) :
    ∀ n (doc : List Char), doc.length ≤ n → (split_dom_content doc L).flatten = doc := by
  intro n
  induction n with
  | zero =>
    intro doc hlen
    have : doc = [] := List.eq_nil_of_length_eq_zero (Nat.le_zero.mp hlen)
    subst this
    simp [split_dom_content_nil]
  | succ n ih =>
    intro doc hlen
    by_cases hd : doc = []
    · subst hd; simp [split_dom_content_nil]
    · rw [split_dom_content_cons (Nat.pos_iff_ne_zero.mp hL) hd]
      have hdrop : (doc.drop L).length ≤ n := by
        have : 0 < doc.length := List.length_pos.mpr hd
        simp only [List.length_drop]
        omega
      rw [List.flatten, ih (doc.drop L) hdrop, List.take_append_drop]

/-- The number of chunks is `⌈len/L⌉ = (len + L - 1) / L`. -/
theorem split_dom_content_count (L : Nat) (hL : 0 < L) :
    ∀ n (doc : List Char), doc.length ≤ n →
      (split_dom_content doc L).length = (doc.length + L - 1) / L := by
  intro n
  induction n with
  | zero =>
    intro doc hlen
    have : doc = [] := List.eq_nil_of_length_eq_zero (Nat.le_zero.mp hlen)
    subst this
    simp only [split_dom_content_nil, List.length_nil, Nat.zero_add]
    exact (Nat.div_eq_of_lt (by omega)).symm
  | succ n ih =>
    intro doc hlen
    by_cases hd : doc = []
    · subst hd
      simp only [split_dom_content_nil, List.length_nil, Nat.zero_add]
      exact (Nat.div_eq_of_lt (by omega)).symm
    · rw [split_dom_content_cons (Nat.pos_iff_ne_zero.mp hL) hd]
      have hpos : 0 < doc.length := List.length_pos.mpr hd
      have hdrop : (doc.drop L).length ≤ n := by
        simp only [List.length_drop]; omega
      rw [List.length_cons, ih (doc.drop L) hdrop]
      simp only [List.length_drop]
      rcases le_or_lt doc.length L with hle | hgt
      · have h1 : doc.length - L = 0 := Nat.sub_eq_zero_of_le hle
        rw [h1]
        have h2 : (0 + L - 1) / L = 0 := Nat.div_eq_of_lt (by omega)
        rw [h2]
        have h3 : (doc.length + L - 1) / L = 1 := by
          apply Nat.div_eq_of_lt_le <;> omega
        omega
      · have h1 : doc.length - L + L - 1 = doc.length - 1 := by omega
        have h2 : doc.length + L - 1 = (doc.length - 1) + L := by omega
        rw [h1, h2, Nat.add_div_right _ hL]

/-- Every chunk except possibly the last has length exactly `L`. -/
theorem split_dom_content_chunk_len (L : Nat) (hL : 0 < L) :
    ∀ n (doc : List Char), doc.length ≤ n →
      ∀ c ∈ (split_dom_content doc L).dropLast, c.length = L := by
  intro n
  induction n with
  | zero =>
    intro doc hlen
    have : doc = [] := List.eq_nil_of_length_eq_zero (Nat.le_zero.mp hlen)
    subst this
    simp [split_dom_content_nil]
  | succ n ih =>
    intro doc hlen c hc
    by_cases hd : doc = []
    · subst hd; simp [split_dom_content_nil] at hc
    · rw [split_dom_content_cons (Nat.pos_iff_ne_zero.mp hL) hd] at hc
      by_cases hrest : doc.drop L = []
      · rw [hrest, split_dom_content_nil] at hc
        simp at hc
      · have hne : split_dom_content (doc.drop L) L ≠ [] := by
          rw [split_dom_content_cons (Nat.pos_iff_ne_zero.mp hL) hrest]
          exact List.cons_ne_nil _ _
        rw [List.dropLast_cons_of_ne_nil hne] at hc
        rcases List.mem_cons.mp hc with hc | hc
        · subst hc
          have hlong : L ≤ doc.length := by
            by_contra hcon
            exact hrest (List.drop_eq_nil_of_le (by omega))
          simp [List.length_take]
          omega
        · have hdrop : (doc.drop L).length ≤ n := by
            have : 0 < doc.length := List.length_pos.mpr hd
            simp only [List.length_drop]; omega
          exact ih (doc.drop L) hdrop c hc

/-- **C1.** `split_dom_content` is deterministic (it is a pure function of the
document and the bound) and exhaustive: for `0 < L` the chunks concatenate
back to the document, the chunk count is `⌈len/L⌉ = (len + L - 1)/L`, every
chunk except possibly the last has length exactly `L`, and the empty document
yields the empty chunk sequence. -/
theorem split_dom_content_spec (doc : List Char) (L : Nat) (hL : 0 < L) :
    (split_dom_content doc L).flatten = doc ∧
    (split_dom_content doc L).length = (doc.length + L - 1) / L ∧
    (∀ c ∈ (split_dom_content doc L).dropLast, c.length = L) ∧
    split_dom_content [] L = [] :=
  ⟨split_dom_content_join L hL doc.length doc le_rfl,
   split_dom_content_count L hL doc.length doc le_rfl,
   split_dom_content_chunk_len L hL doc.length doc le_rfl,
   split_dom_content_nil L⟩

/-- Witness for C1 at the concrete document `"abcdefg"` with bound 3:
chunks `["abc", "def", "g"]`. -/
theorem split_dom_content_spec_witness :
    (split_dom_content "abcdefg".data 3).flatten = "abcdefg".data ∧
    (split_dom_content "abcdefg".data 3).length = 3 :=
  ⟨(split_dom_content_spec "abcdefg".data 3 (by decide)).1, by decide⟩

/-! ## Basic fetcher — `scrape_website` (scrape.py) and its caller (main.py)

```python
def scrape_website(url, timeout=20):
    headers = {...}
    try:
        response = requests.get(url, headers=headers, timeout=timeout)
        response.raise_for_status()   # throw error on 4xx/5xx
        return response.text
    except requests.exceptions.RequestException as e:
        return f"ERROR: Failed to scrape the website.\nDetails: {e}"
```

The network is modelled by the single request's outcome: `.ok text` is a
successful 2xx response body, `.error e` is a raised
`requests.exceptions.RequestException` with message `e` (transport failure,
or the `raise_for_status` error on a 4xx/5xx status).
-/

def scrape_website (net : Except String String) : String :=
  match net with
  | .ok text => text
  | .error e => "ERROR: Failed to scrape the website.\nDetails: " ++ e

/-- The caller's classification of a `scrape_website` result
(main.py, `render_basic_scraper`):

```python
if isinstance(result, str) and result.startswith("ERROR:"):
    st.error(result); return
```

Every value in the model is a string, so the `isinstance` conjunct is
always true and the classification is the prefix test alone. -/
def treatedAsFailure (result : String) : Bool :=
  pyStartswith result "ERROR:"

/-- **C9.** Fetch success and failure share one in-band string encoding:
failures are returned as strings beginning with
`"ERROR: Failed to scrape the website."`, successes as the raw page text,
and the caller classifies solely by the `"ERROR:"` prefix — so a
successfully fetched page whose text begins with `"ERROR:"` (here the
concrete page `"ERROR: 404 page"`) is treated as a fetch failure. -/
theorem scrape_website_inband_encoding :
    (∀ e : String,
      pyStartswith (scrape_website (.error e)) "ERROR: Failed to scrape the website." = true) ∧
    (∀ t : String, scrape_website (.ok t) = t) ∧
    (∀ e : String, treatedAsFailure (scrape_website (.error e)) = true) ∧
    (scrape_website (.ok "ERROR: 404 page") = "ERROR: 404 page" ∧
      treatedAsFailure (scrape_website (.ok "ERROR: 404 page")) = true) := by
  refine ⟨?_, fun t => rfl, ?_, by decide, by decide⟩
  · intro e
    show ("ERROR: Failed to scrape the website.").data.isPrefixOf
      ("ERROR: Failed to scrape the website.\nDetails: " ++ e).data = true
    rw [String.data_append, List.isPrefixOf_iff_prefix]
    exact ⟨"\nDetails: ".data ++ e.data, by simp⟩
  · intro e
    show ("ERROR:").data.isPrefixOf
      ("ERROR: Failed to scrape the website.\nDetails: " ++ e).data = true
    rw [String.data_append, List.isPrefixOf_iff_prefix]
    exact ⟨" Failed to scrape the website.".data ++ "\nDetails: ".data ++ e.data, by simp⟩

/-! ## Advanced fetcher — `generic_fetch` (advance_scrape.py)

The network is an oracle `net : String → List (String × String) → Except
String String`: `net endpoint params` is the outcome of
`_get(endpoint, params=params, ...)` — `.ok html` for a 2xx response,
`.error e` for the `AdvancedScraperError` that `_get` raises on any
transport error or non-2xx status.  `generic_fetch` itself returns
`Except String String`; `.error m` models `raise AdvancedScraperError(m)`.
Provider ids and the API key are `Option String` (`none` = Python `None`);
`options.get("render_js", False)` is the `render_js : Bool` parameter.
-/

def DEFAULT_TIMEOUT : Nat := 30

def fetch_with_scraperapi (url api_key : String)
    (net : String → List (String × String) → Except String String) :
    Except String String :=
  net "https://api.scraperapi.com"
    [("api_key", api_key), ("url", url), ("render", "false")]

def fetch_with_scrapingbee (url api_key : String) (render_js : Bool)
    (net : String → List (String × String) → Except String String) :
    Except String String :=
  net "https://app.scrapingbee.com/api/v1"
    (if render_js then [("api_key", api_key), ("url", url), ("render_js", "true")]
     else [("api_key", api_key), ("url", url)])

def fetch_with_scrapingdog (url api_key : String)
    (net : String → List (String × String) → Except String String) :
    Except String String :=
  net "https://api.scrapingdog.com/scrape" [("api_key", api_key), ("url", url)]

def fetch_with_zenrows (url api_key : String)
    (net : String → List (String × String) → Except String String) :
    Except String String :=
  net "https://api.zenrows.com/v1/" [("apikey", api_key), ("url", url)]

/--
```python
def generic_fetch(url, provider, api_key=None, timeout=DEFAULT_TIMEOUT, **options):
    if provider is None or provider.lower() in ("none", "basic"):
        raise AdvancedScraperError("No provider selected. Use the basic scraper or select a provider.")
    p = provider.lower()
    if not api_key:
        raise AdvancedScraperError("API key is required for provider: " + provider)
    if p == "scraperapi": ...
    elif p == "scrapingbee": ...
    elif p == "scrapingdog": ...
    elif p == "zenrows": ...
    else:
        raise AdvancedScraperError(f"Unknown provider: {provider}")
```

`not api_key` is true for `None` and for the empty string. -/
def generic_fetch (url : String) (provider : Option String) (api_key : Option String)
    (render_js : Bool)
    (net : String → List (String × String) → Except String String) :
    Except String String :=
  match provider with
  | none => .error "No provider selected. Use the basic scraper or select a provider."
  | some prov =>
    if pyLower prov = "none" || pyLower prov = "basic" then
      .error "No provider selected. Use the basic scraper or select a provider."
    else
      let p := pyLower prov
      if api_key = none || api_key = some "" then
        .error ("API key is required for provider: " ++ prov)
      else
        let key := api_key.getD ""
        if p = "scraperapi" then fetch_with_scraperapi url key net
        else if p = "scrapingbee" then fetch_with_scrapingbee url key render_js net
        else if p = "scrapingdog" then fetch_with_scrapingdog url key net
        else if p = "zenrows" then fetch_with_zenrows url key net
        else .error ("Unknown provider: " ++ prov)

/-- **C7.** Provider-delegated fetch fails fast: with a missing provider, a
provider id resolving to `"none"`/`"basic"`, an empty or missing credential,
or an invalid/unsupported provider id, `generic_fetch` returns an explicit
`AdvancedScraperError` whose message names the condition — and the result is
the same for **every** network oracle `net`, i.e. no network request is
issued. -/
theorem generic_fetch_fails_fast (url : String) (render_js : Bool) :
    (∀ net key, generic_fetch url none key render_js net =
      .error "No provider selected. Use the basic scraper or select a provider.") ∧
    (∀ net p key, (pyLower p = "none" ∨ pyLower p = "basic") →
      generic_fetch url (some p) key render_js net =
        .error "No provider selected. Use the basic scraper or select a provider.") ∧
    (∀ net p key, ¬(pyLower p = "none" ∨ pyLower p = "basic") →
      (key = none ∨ key = some "") →
      generic_fetch url (some p) key render_js net =
        .error ("API key is required for provider: " ++ p)) ∧
    (∀ net p key, ¬(pyLower p = "none" ∨ pyLower p = "basic") →
      ¬(key = none ∨ key = some "") →
      pyLower p ∉ ["scraperapi", "scrapingbee", "scrapingdog", "zenrows"] →
      generic_fetch url (some p) key render_js net =
        .error ("Unknown provider: " ++ p)) := by
  refine ⟨fun net key => rfl, ?_, ?_, ?_⟩
  · intro net p key h
    simp only [generic_fetch]
    have : (pyLower p = "none" || pyLower p = "basic") = true := by
      rcases h with h | h <;> simp [h]
    rw [this]
    rfl
  · intro net p key h hkey
    simp only [generic_fetch]
    have h1 : (pyLower p = "none" || pyLower p = "basic") = false := by
      push_neg at h
      simp [h.1, h.2]
    have h2 : (key = none || key = some "") = true := by
      rcases hkey with h | h <;> simp [h]
    rw [h1, h2]
    rfl
  · intro net p key h hkey hmem
    simp only [generic_fetch]
    have h1 : (pyLower p = "none" || pyLower p = "basic") = false := by
      push_neg at h
      simp [h.1, h.2]
    have h2 : (key = none || key = some "") = false := by
      push_neg at hkey
      simp [hkey.1, hkey.2]
    simp only [List.mem_cons, List.mem_singleton, not_or] at hmem
    obtain ⟨m1, m2, m3, m4, -⟩ := hmem
    rw [h1, h2]
    simp only [Bool.false_eq_true, if_false, if_neg m1, if_neg m2, if_neg m3, if_neg m4]

/-- Witness for C7: at the concrete inputs `provider = "ScraperAPI"` with an
empty key, and `provider = "FancyProxy"` with a non-empty key, `generic_fetch`
fails fast with the missing-credential and unknown-provider messages
(instantiated with a network oracle that would answer every request). -/
theorem generic_fetch_fails_fast_witness :
    generic_fetch "http://x.example" (some "ScraperAPI") (some "") false
      (fun _ _ => .ok "<html></html>") =
      .error "API key is required for provider: ScraperAPI" ∧
    generic_fetch "http://x.example" (some "FancyProxy") (some "k") false
      (fun _ _ => .ok "<html></html>") =
      .error "Unknown provider: FancyProxy" :=
  ⟨(generic_fetch_fails_fast "http://x.example" false).2.2.1
      (fun _ _ => .ok "<html></html>") "ScraperAPI" (some "") (by decide) (Or.inr rfl),
   (generic_fetch_fails_fast "http://x.example" false).2.2.2
      (fun _ _ => .ok "<html></html>") "FancyProxy" (some "k") (by decide)
      (by simp) (by decide)⟩

/-! ## Extraction driver — `parse_with_llm` (parse_llm.py)

The per-chunk network call `requests.post(...)` and the subsequent
`resp.json()` are modelled by an oracle `net : Nat → NetResult` giving, for
each chunk index `i`, the outcome of that chunk's request (all other request
ingredients — provider, key, prompt — are fixed per call, so the index
determines the request).  JSON values are modelled by `Json`; Python
subscripting and the `in` operator on them are modelled with their dynamic
failure modes (`.error msg` = the corresponding exception, whose message
stands for `str(e)`).
-/

/-- A JSON value as `resp.json()` can produce it (numbers/booleans are not
distinguished beyond "not a container, not a string", which `other` covers). -/
inductive Json where
  | null
  | str (s : String)
  | arr (elems : List Json)
  | obj (fields : List (String × Json))
  | other
deriving Inhabited

/-- Outcome of one chunk's `requests.post` + `resp.json()`:
`raised msg` — `requests.post` raised; `response status body js` — a
response with `resp.status_code = status`, `resp.text = body`, and
`resp.json() = js` (`.error` when `resp.json()` raises on a malformed
body). -/
inductive NetResult where
  | raised (msg : String)
  | response (status : Nat) (body : String) (js : Except String Json)

/-- Python truthiness of a JSON value (`if ... and data["candidates"]`). -/
def Json.truthy : Json → Bool
  | .null => false
  | .str s => s ≠ ""
  | .arr [] => false
  | .arr (_ :: _) => true
  | .obj [] => false
  | .obj (_ :: _) => true
  | .other => true

/-- Python `data[key]` for a string key. -/
def jGetKey (j : Json) (k : String) : Except String Json :=
  match j with
  | .obj kvs =>
    match kvs.find? (fun p => p.1 == k) with
    | some p => .ok p.2
    | none => .error ("KeyError: " ++ k)
  | .str _ => .error "TypeError: string indices must be integers"
  | .arr _ => .error "TypeError: list indices must be integers"
  | .null => .error "TypeError: NoneType object is not subscriptable"
  | .other => .error "TypeError: object is not subscriptable"

/-- Python `data[i]` for an integer index. -/
def jGetIdx (j : Json) (i : Nat) : Except String Json :=
  match j with
  | .arr xs =>
    match xs.get? i with
    | some v => .ok v
    | none => .error "IndexError: list index out of range"
  | .obj _ => .error ("KeyError: " ++ toString i)
  | .str s =>
    match s.data.get? i with
    | some c => .ok (.str ⟨[c]⟩)
    | none => .error "IndexError: string index out of range"
  | .null => .error "TypeError: NoneType object is not subscriptable"
  | .other => .error "TypeError: object is not subscriptable"

/-- Python `needle in v` (membership / substring test), which raises
`TypeError` on non-container values. -/
def pyInJson (needle : String) (v : Json) : Except String Bool :=
  match v with
  | .str s => .ok (containsSub s needle)
  | .arr xs => .ok (xs.any fun v => match v with | .str s => s == needle | _ => false)
  | .obj kvs => .ok (kvs.any (fun p => p.1 == needle))
  | .null => .error "TypeError: argument of type NoneType is not iterable"
  | .other => .error "TypeError: argument of type is not iterable"

def noCandidatesMsg : String := "Error: Gemini returned no candidates (Safety filter?)"

/-- The response-envelope step of the loop body (parse_llm.py):

```python
if provider == "gemini":
    if "candidates" in data and data["candidates"]:
        result_text = data["candidates"][0]["content"]["parts"][0]["text"]
    else:
        result_text = "Error: Gemini returned no candidates (Safety filter?)"
else:
    result_text = data["choices"][0]["message"]["content"]
```

`.ok v` is the value assigned to `result_text` (not necessarily a string);
`.error msg` means the step raised (caught by the surrounding `except`). -/
def extractResultText (provider : String) (data : Json) : Except String Json :=
  if provider = "gemini" then
    match data with
    | .obj kvs =>
      match kvs.find? (fun p => p.1 == "candidates") with
      | some p =>
        if p.2.truthy then do
          let a ← jGetKey data "candidates"
          let b ← jGetIdx a 0
          let c ← jGetKey b "content"
          let d ← jGetKey c "parts"
          let e ← jGetIdx d 0
          jGetKey e "text"
        else .ok (.str noCandidatesMsg)
      | none => .ok (.str noCandidatesMsg)
    | .arr xs =>
      -- `"candidates" in data` on a list is an element test; when it holds,
      -- `data["candidates"]` then raises TypeError.
      if xs.any (fun v => match v with | .str s => s == "candidates" | _ => false) then
        .error "TypeError: list indices must be integers"
      else .ok (.str noCandidatesMsg)
    | .str s =>
      -- `in` on a string is a substring test; when it holds,
      -- `data["candidates"]` then raises TypeError.
      if containsSub s "candidates" then
        .error "TypeError: string indices must be integers"
      else .ok (.str noCandidatesMsg)
    | .null => .error "TypeError: argument of type NoneType is not iterable"
    | .other => .error "TypeError: argument of type is not iterable"
  else do
    let a ← jGetKey data "choices"
    let b ← jGetIdx a 0
    let c ← jGetKey b "message"
    jGetKey c "content"

def chunkErrorMsg (i status : Nat) (body : String) : String :=
  "Error (Chunk " ++ toString i ++ "): API returned " ++ toString status ++ " - " ++ body

/-- The body of the processing loop for one non-blank chunk of index `i`:
what it appends to `final_output` (`none` = nothing appended — the
`"NO_DATA"` filter discarded the response).  Appended values are kept as
`Json` because Python appends `result_text` unchecked; error strings are
appended as `.str`. -/
def respPiece (provider : String) (r : NetResult) (i : Nat) : Option Json :=
  match r with
  | .raised msg => some (.str ("Critical Error: " ++ msg))
  | .response status body js =>
    if status ≠ 200 then some (.str (chunkErrorMsg i status body))
    else
      match js with
      | .error msg => some (.str ("Critical Error: " ++ msg))
      | .ok data =>
        match extractResultText provider data with
        | .error msg => some (.str ("Critical Error: " ++ msg))
        | .ok result_text =>
          match pyInJson "NO_DATA" result_text with
          | .error msg => some (.str ("Critical Error: " ++ msg))
          | .ok true => none
          | .ok false => some result_text

/-- The loop body including the blank-chunk skip
(`if not chunk.strip(): continue`). -/
def chunkPiece (provider : String) (net : Nat → NetResult) (i : Nat) (chunk : String) :
    Option Json :=
  if pyStrip chunk = "" then none else respPiece provider (net i) i

/-- The processing loop (`for i, chunk in enumerate(dom_chunks)`) with its
`final_output` accumulator. -/
def processChunks (provider : String) (net : Nat → NetResult) :
    Nat → List String → List Json → List Json
  | _, [], out => out
  | i, chunk :: rest, out =>
    processChunks provider net (i + 1) rest
      (match chunkPiece provider net i chunk with
       | none => out
       | some v => out ++ [v])

/-- Check that every joined value is a string (`"\n".join` raises `TypeError`
at the first non-string element). -/
def asStrs : List Json → Except String (List String)
  | [] => .ok []
  | Json.str s :: rest => (asStrs rest).map (s :: ·)
  | _ :: _ => .error "TypeError: sequence item: expected str instance"

/-- `"\n".join(final_output)`: joins the retained values, raising `TypeError`
(modelled as `.error`) on a non-string element. -/
def pyJoinStrs (xs : List Json) : Except String String :=
  (asStrs xs).map (String.intercalate "\n")

def emptyContentMsg : String :=
  "Error: The text content to parse is empty. Please check your scraping step."

def invalidProviderMsg : String := "Error: Invalid provider selected."

def noMatchMsg : String := "No matching data found in the content."

/-- The static provider configuration (parse_llm.py step 2): model name and
endpoint URL per provider, `none` for an unknown provider. -/
def providerConfig (provider api_key : String) : Option (String × String) :=
  if provider = "gemini" then
    some ("gemini-2.0-flash",
      "https://generativelanguage.googleapis.com/v1beta/models/gemini-2.0-flash:generateContent?key="
        ++ api_key)
  else if provider = "groq" then
    some ("llama3-70b-8192", "https://api.groq.com/openai/v1/chat/completions")
  else if provider = "openai" then
    some ("gpt-4o-mini", "https://api.openai.com/v1/chat/completions")
  else none

/-- `parse_with_llm(provider, api_key, dom_chunks, parse_description)`.
The returned value is `.ok s` for a normal return of `s`, `.error msg` when
the call raises (which the final `"\n".join` can do on a non-string
element). -/
def parse_with_llm (provider api_key : String) (net : Nat → NetResult)
    (dom_chunks : List String) (parse_description : String) : Except String String :=
  if dom_chunks.isEmpty || dom_chunks.all (fun chunk => pyStrip chunk == "") then
    .ok emptyContentMsg
  else
    match providerConfig provider api_key with
    | none => .ok invalidProviderMsg
    | some _ =>
      let final_output := processChunks provider net 0 dom_chunks []
      if final_output.isEmpty then .ok noMatchMsg
      else pyJoinStrs final_output

/-- The per-chunk contributions, in chunk order, starting the enumeration at
index `j` — the compositional description of what the loop accumulates. -/
def outputPiecesFrom (provider : String) (net : Nat → NetResult) (j : Nat)
    (chunks : List String) : List Json :=
  (chunks.enumFrom j).filterMap (fun p => chunkPiece provider net p.1 p.2)

/-- The loop's accumulator result is the `filterMap` of the per-chunk
function: each chunk contributes independently, in order. -/
theorem processChunks_eq_filterMap (provider : String) (net : Nat → NetResult) :
    ∀ (chunks : List String) (j : Nat) (out : List Json),
      processChunks provider net j chunks out =
        out ++ outputPiecesFrom provider net j chunks := by
  intro chunks
  induction chunks with
  | nil => intro j out; simp [processChunks, outputPiecesFrom, List.enumFrom]
  | cons c rest ih =>
    intro j out
    show processChunks provider net (j + 1) rest _ = _
    rw [ih]
    unfold outputPiecesFrom
    simp only [List.enumFrom, List.filterMap_cons]
    cases h : chunkPiece provider net j c with
    | none => simp [h]
    | some v => simp [h]

theorem outputPiecesFrom_append (provider : String) (net : Nat → NetResult) :
    ∀ (l₁ l₂ : List String) (j : Nat),
      outputPiecesFrom provider net j (l₁ ++ l₂) =
        outputPiecesFrom provider net j l₁ ++
          outputPiecesFrom provider net (j + l₁.length) l₂ := by
  intro l₁
  induction l₁ with
  | nil => intro l₂ j; simp [outputPiecesFrom, List.enumFrom]
  | cons c rest ih =>
    intro l₂ j
    unfold outputPiecesFrom
    simp only [List.cons_append, List.enumFrom, List.filterMap_cons, List.length_cons]
    have harith : j + (rest.length + 1) = j + 1 + rest.length := by omega
    rw [harith]
    have ihspec := ih l₂ (j + 1)
    unfold outputPiecesFrom at ihspec
    cases h : chunkPiece provider net j c with
    | none =>
      simp only [h, List.append_eq]
      rw [ihspec]
    | some v =>
      simp only [h, List.append_eq]
      rw [ihspec]
      simp

theorem asStrs_of_map_str : ∀ ss : List String,
    asStrs (ss.map Json.str) = .ok ss := by
  intro ss
  induction ss with
  | nil => rfl
  | cons s rest ih => simp [asStrs, ih, Except.map]

theorem asStrs_all_str : ∀ xs : List Json, (∀ j ∈ xs, ∃ s, j = Json.str s) →
    ∃ ss : List String, xs = ss.map Json.str := by
  intro xs
  induction xs with
  | nil => exact fun _ => ⟨[], rfl⟩
  | cons j rest ih =>
    intro h
    obtain ⟨s, rfl⟩ := h j (List.mem_cons_self j rest)
    obtain ⟨ss, rfl⟩ := ih (fun x hx => h x (List.mem_cons_of_mem _ hx))
    exact ⟨s :: ss, rfl⟩

theorem mem_enumFrom_of_get : ∀ (l : List String) (j i : Nat) (h : i < l.length),
    (j + i, l.get ⟨i, h⟩) ∈ l.enumFrom j := by
  intro l
  induction l with
  | nil => intro j i h; simp at h
  | cons c rest ih =>
    intro j i h
    cases i with
    | zero => simp [List.enumFrom]
    | succ k =>
      have hk : k < rest.length := by simpa using h
      have := ih (j + 1) k hk
      have harith : j + (k + 1) = j + 1 + k := by omega
      rw [harith]
      exact List.mem_cons_of_mem _ this

/-- A non-blank chunk's contribution is decided by the network outcome for
its index alone. -/
theorem chunkPiece_nonblank {c : String} (provider : String) (net : Nat → NetResult)
    (i : Nat) (h : pyStrip c ≠ "") :
    chunkPiece provider net i c = respPiece provider (net i) i := by
  simp [chunkPiece, h]

/-- A non-200 response yields exactly the chunk-error string. -/
theorem respPiece_non200 (provider : String) (i status : Nat) (body : String)
    (js : Except String Json) (h : status ≠ 200) :
    respPiece provider (.response status body js) i =
      some (.str (chunkErrorMsg i status body)) := by
  simp [respPiece, h]

/-- A raised request exception yields exactly the Critical Error string. -/
theorem respPiece_raised (provider : String) (i : Nat) (msg : String) :
    respPiece provider (.raised msg) i = some (.str ("Critical Error: " ++ msg)) := rfl

/-- **C3 (amended).** Per-chunk error isolation in `parse_with_llm`: for a
valid provider and a non-empty, non-blank chunk list, the result is the
merge of independent per-chunk contributions (`outputPiecesFrom`), so one
chunk's failure never aborts the others: a chunk whose request returns a
non-200 status contributes the error string naming its index, status code
and raw body, and a chunk whose request (or envelope parsing) raises
contributes a string tagged "Critical Error" — processing continues either
way.  Provided every retained response text is a string (hypothesis `hstr` —
the amendment), the call returns normally (never raises) with some result
string.  Without `hstr` the claim fails: see the counterexample, where a
200 response whose envelope text field is a non-string makes the final
`"\n".join` raise. -/
theorem parse_with_llm_error_isolation (provider api_key desc : String)
    (net : Nat → NetResult) (chunks : List String)
    (hprov : providerConfig provider api_key ≠ none)
    (hne : (chunks.isEmpty || chunks.all (fun c => pyStrip c == "")) = false)
    (hstr : ∀ i j, respPiece provider (net i) i = some j → ∃ s, j = Json.str s) :
    (∃ s, parse_with_llm provider api_key net chunks desc = .ok s) ∧
    parse_with_llm provider api_key net chunks desc =
      (if (outputPiecesFrom provider net 0 chunks).isEmpty then .ok noMatchMsg
       else pyJoinStrs (outputPiecesFrom provider net 0 chunks)) ∧
    (∀ i (hi : i < chunks.length), pyStrip (chunks.get ⟨i, hi⟩) ≠ "" →
      (∀ status body js, net i = .response status body js → status ≠ 200 →
        Json.str (chunkErrorMsg i status body) ∈ outputPiecesFrom provider net 0 chunks) ∧
      (∀ msg, net i = .raised msg →
        Json.str ("Critical Error: " ++ msg) ∈ outputPiecesFrom provider net 0 chunks)) := by
  have hpieces : ∀ j ∈ outputPiecesFrom provider net 0 chunks, ∃ s, j = Json.str s := by
    intro j hj
    obtain ⟨⟨i, c⟩, -, hp⟩ := List.mem_filterMap.mp hj
    unfold chunkPiece at hp
    by_cases hb : pyStrip c = ""
    · simp [hb] at hp
    · rw [if_neg hb] at hp
      exact hstr i j hp
  have hmain : parse_with_llm provider api_key net chunks desc =
      (if (outputPiecesFrom provider net 0 chunks).isEmpty then .ok noMatchMsg
       else pyJoinStrs (outputPiecesFrom provider net 0 chunks)) := by
    unfold parse_with_llm
    rw [hne]
    cases hcfg : providerConfig provider api_key with
    | none => exact absurd hcfg hprov
    | some cfg =>
      simp only [Bool.false_eq_true, if_false]
      rw [processChunks_eq_filterMap]
      simp [outputPiecesFrom]
  refine ⟨?_, hmain, ?_⟩
  · rw [hmain]
    by_cases hempty : (outputPiecesFrom provider net 0 chunks).isEmpty
    · rw [if_pos hempty]; exact ⟨noMatchMsg, rfl⟩
    · rw [if_neg hempty]
      obtain ⟨ss, hss⟩ := asStrs_all_str _ hpieces
      exact ⟨String.intercalate "\n" ss, by rw [hss]; simp [pyJoinStrs, asStrs_of_map_str, Except.map]⟩
  · intro i hi hbi
    have hmem := mem_enumFrom_of_get chunks 0 i hi
    rw [Nat.zero_add] at hmem
    constructor
    · intro status body js hnet hstatus
      apply List.mem_filterMap.mpr
      refine ⟨(i, chunks.get ⟨i, hi⟩), hmem, ?_⟩
      rw [chunkPiece_nonblank provider net i hbi, hnet,
        respPiece_non200 provider i status body js hstatus]
    · intro msg hnet
      apply List.mem_filterMap.mpr
      refine ⟨(i, chunks.get ⟨i, hi⟩), hmem, ?_⟩
      rw [chunkPiece_nonblank provider net i hbi, hnet, respPiece_raised]

/-- Network oracle for the C3 witness: chunk 0 gets a 500 response with an
unparsable body, every later chunk's request raises mid-flight. -/
def exNetC3 : Nat → NetResult := fun i =>
  if i = 0 then .response 500 "boom" (.error "bad json") else .raised "conn reset"

/-- Witness for C3 at the concrete call
`parse_with_llm "groq" "k" exNetC3 ["a", "b"] "d"`: the 500 of chunk 0 and
the raised request of chunk 1 are both recorded, in order, and the call
returns normally. -/
theorem parse_with_llm_error_isolation_witness :
    parse_with_llm "groq" "k" exNetC3 ["a", "b"] "d" =
      .ok ("Error (Chunk 0): API returned 500 - boom" ++ "\n" ++
        "Critical Error: conn reset") := by
  have h := parse_with_llm_error_isolation "groq" "k" "d" exNetC3 ["a", "b"]
    (by decide) (by decide)
    (by
      intro i j hp
      unfold exNetC3 at hp
      by_cases hi : i = 0
      · rw [if_pos hi] at hp
        rw [respPiece_non200 _ _ _ _ _ (by decide)] at hp
        exact ⟨_, (Option.some_inj.mp hp).symm⟩
      · rw [if_neg hi, respPiece_raised] at hp
        exact ⟨_, (Option.some_inj.mp hp).symm⟩)
  rw [h.2.1]
  rfl

/-- Counterexample to C3 as stated: a 200 response whose (well-formed JSON)
envelope carries a **non-string** `content` value passes the `"NO_DATA"`
filter (membership in an empty list is false), is appended unchecked, and
the final `"\n".join(final_output)` then raises `TypeError` — the call does
not always produce a result string. -/
def exNetC3cex : Nat → NetResult := fun _ =>
  .response 200 "" (.ok (Json.obj [("choices", Json.arr [Json.obj
    [("message", Json.obj [("content", Json.arr [])])]])]))

theorem parse_with_llm_raises_counterexample :
    parse_with_llm "groq" "k" exNetC3cex ["chunk"] "d" =
      .error "TypeError: sequence item: expected str instance" := by rfl

/-- **C4.** Sentinel filtering: a chunk whose successfully parsed response
text `t` contains `"NO_DATA"` anywhere is discarded entirely — the merged
piece list is exactly that of the other chunks, and (second conjunct of the
sentinel case) the overall result is built from those pieces alone; a
response text not containing the sentinel is retained in place. -/
theorem parse_with_llm_sentinel_filtering (provider api_key desc : String)
    (net : Nat → NetResult) (pre post : List String) (c : String)
    (body : String) (data : Json) (t : String)
    (hprov : providerConfig provider api_key ≠ none)
    (hblank : pyStrip c ≠ "")
    (hres : net pre.length = .response 200 body (.ok data))
    (hex : extractResultText provider data = .ok (.str t)) :
    (containsSub t "NO_DATA" = true →
      outputPiecesFrom provider net 0 (pre ++ c :: post) =
        outputPiecesFrom provider net 0 pre ++
          outputPiecesFrom provider net (pre.length + 1) post ∧
      parse_with_llm provider api_key net (pre ++ c :: post) desc =
        (if (outputPiecesFrom provider net 0 pre ++
              outputPiecesFrom provider net (pre.length + 1) post).isEmpty
         then .ok noMatchMsg
         else pyJoinStrs (outputPiecesFrom provider net 0 pre ++
              outputPiecesFrom provider net (pre.length + 1) post))) ∧
    (containsSub t "NO_DATA" = false →
      outputPiecesFrom provider net 0 (pre ++ c :: post) =
        outputPiecesFrom provider net 0 pre ++
          Json.str t :: outputPiecesFrom provider net (pre.length + 1) post) := by
  have hcp : chunkPiece provider net pre.length c =
      (if containsSub t "NO_DATA" then none else some (Json.str t)) := by
    rw [chunkPiece_nonblank provider net pre.length hblank, hres]
    simp only [respPiece, hex, pyInJson]
    cases h : containsSub t "NO_DATA" <;> simp [h]
  have hsplit : outputPiecesFrom provider net 0 (pre ++ c :: post) =
      outputPiecesFrom provider net 0 pre ++
        outputPiecesFrom provider net pre.length (c :: post) := by
    have := outputPiecesFrom_append provider net pre (c :: post) 0
    rwa [Nat.zero_add] at this
  have hcons : outputPiecesFrom provider net pre.length (c :: post) =
      (match chunkPiece provider net pre.length c with
       | none => outputPiecesFrom provider net (pre.length + 1) post
       | some v => v :: outputPiecesFrom provider net (pre.length + 1) post) := by
    unfold outputPiecesFrom
    simp only [List.enumFrom, List.filterMap_cons]
    cases chunkPiece provider net pre.length c <;> rfl
  have hne : ((pre ++ c :: post).isEmpty ||
      (pre ++ c :: post).all (fun chunk => pyStrip chunk == "")) = false := by
    apply Bool.or_eq_false_iff.mpr
    constructor
    · cases pre <;> rfl
    · apply (List.all_eq_false).mpr
      exact ⟨c, by simp, by simpa using hblank⟩
  constructor
  · intro hsent
    have hpieces : outputPiecesFrom provider net 0 (pre ++ c :: post) =
        outputPiecesFrom provider net 0 pre ++
          outputPiecesFrom provider net (pre.length + 1) post := by
      rw [hsplit, hcons, hcp, if_pos hsent]
    refine ⟨hpieces, ?_⟩
    unfold parse_with_llm
    rw [hne]
    cases hcfg : providerConfig provider api_key with
    | none => exact absurd hcfg hprov
    | some cfg =>
      simp only [Bool.false_eq_true, if_false]
      rw [processChunks_eq_filterMap]
      show (if (outputPiecesFrom provider net 0 (pre ++ c :: post)).isEmpty then _ else
        pyJoinStrs (outputPiecesFrom provider net 0 (pre ++ c :: post))) = _
      rw [hpieces]
  · intro hsent
    rw [hsplit, hcons, hcp, if_neg (by simp [hsent])]

/-- Network oracle for the C4 witness (the spec's sentinel example): chunk 0
parses to `"FieldX: foo"`, chunk 1 parses to `"NO_DATA"`. -/
def exNetC4 : Nat → NetResult := fun i =>
  if i = 0 then
    .response 200 "" (.ok (Json.obj [("choices", Json.arr [Json.obj
      [("message", Json.obj [("content", Json.str "FieldX: foo")])]])]))
  else
    .response 200 "" (.ok (Json.obj [("choices", Json.arr [Json.obj
      [("message", Json.obj [("content", Json.str "NO_DATA")])]])]))

/-- Witness for C4, the spec's own example: chunks `["data1", "data2"]` where
the provider answers `"FieldX: foo"` for chunk 1 and `"NO_DATA"` for chunk 2
yield exactly `"FieldX: foo"`. -/
theorem parse_with_llm_sentinel_filtering_witness :
    parse_with_llm "groq" "k" exNetC4 ["data1", "data2"] "d" = .ok "FieldX: foo" := by
  have h := (parse_with_llm_sentinel_filtering "groq" "k" "d" exNetC4 ["data1"] [] "data2"
    "" (Json.obj [("choices", Json.arr [Json.obj
      [("message", Json.obj [("content", Json.str "NO_DATA")])]])]) "NO_DATA"
    (by decide) (by decide) rfl rfl).1 (by decide)
  show parse_with_llm "groq" "k" exNetC4 (["data1"] ++ "data2" :: []) "d" = .ok "FieldX: foo"
  rw [h.2]
  rfl

/-- **C5 (amended).** The final result is the newline-joined concatenation
of the retained per-chunk strings in original chunk order, and when nothing
was retained the fixed "No matching data found in the content." string is
returned instead.  (The claim's conclusion that the caller never receives
empty output fails: a retained response text can itself be the empty
string — see the counterexample.) -/
theorem parse_with_llm_merge_result (provider api_key desc : String)
    (net : Nat → NetResult) (chunks : List String)
    (hprov : providerConfig provider api_key ≠ none)
    (hne : (chunks.isEmpty || chunks.all (fun c => pyStrip c == "")) = false) :
    (outputPiecesFrom provider net 0 chunks = [] →
      parse_with_llm provider api_key net chunks desc = .ok noMatchMsg) ∧
    (∀ ss : List String, outputPiecesFrom provider net 0 chunks = ss.map Json.str →
      ss ≠ [] →
      parse_with_llm provider api_key net chunks desc =
        .ok (String.intercalate "\n" ss)) := by
  have hmain : parse_with_llm provider api_key net chunks desc =
      (if (outputPiecesFrom provider net 0 chunks).isEmpty then .ok noMatchMsg
       else pyJoinStrs (outputPiecesFrom provider net 0 chunks)) := by
    unfold parse_with_llm
    rw [hne]
    cases hcfg : providerConfig provider api_key with
    | none => exact absurd hcfg hprov
    | some cfg =>
      simp only [Bool.false_eq_true, if_false]
      rw [processChunks_eq_filterMap]
      simp [outputPiecesFrom]
  constructor
  · intro hempty
    rw [hmain, hempty]
    rfl
  · intro ss hss hne'
    rw [hmain, hss]
    have : (ss.map Json.str).isEmpty = false := by
      cases ss with
      | nil => exact absurd rfl hne'
      | cons a l => rfl
    rw [this]
    simp [pyJoinStrs, asStrs_of_map_str, Except.map]

/-- Witness for C5 at a concrete call merging one retained text and one
chunk error: the result is their newline-join in chunk order. -/
theorem parse_with_llm_merge_result_witness :
    parse_with_llm "groq" "k" exNetC3 ["a", "b"] "d" =
      .ok (String.intercalate "\n"
        ["Error (Chunk 0): API returned 500 - boom", "Critical Error: conn reset"]) :=
  (parse_with_llm_merge_result "groq" "k" "d" exNetC3 ["a", "b"]
    (by decide) (by decide)).2
    ["Error (Chunk 0): API returned 500 - boom", "Critical Error: conn reset"]
    (by rfl) (by decide)

/-- Counterexample to C5 as stated: a 200 response whose parsed text is the
empty string (which does not contain `"NO_DATA"`) is retained, so the call
returns the empty string — the caller can receive empty output. -/
def exNetC5 : Nat → NetResult := fun _ =>
  .response 200 "" (.ok (Json.obj [("choices", Json.arr [Json.obj
    [("message", Json.obj [("content", Json.str "")])]])]))

theorem parse_with_llm_empty_output_counterexample :
    parse_with_llm "groq" "k" exNetC5 ["chunk"] "d" = .ok "" := by rfl

/-- **C10.** For a provider outside `{"gemini", "groq", "openai"}` and a
non-empty, non-whitespace chunk sequence, `parse_with_llm` returns exactly
`"Error: Invalid provider selected."` — for every network oracle, i.e.
without issuing any request. -/
theorem parse_with_llm_invalid_provider (provider api_key desc : String)
    (chunks : List String)
    (hprov : provider ≠ "gemini" ∧ provider ≠ "groq" ∧ provider ≠ "openai")
    (hne : (chunks.isEmpty || chunks.all (fun c => pyStrip c == "")) = false) :
    ∀ net, parse_with_llm provider api_key net chunks desc = .ok invalidProviderMsg := by
  intro net
  unfold parse_with_llm
  rw [hne]
  have hcfg : providerConfig provider api_key = none := by
    unfold providerConfig
    rw [if_neg hprov.1, if_neg hprov.2.1, if_neg hprov.2.2]
  rw [hcfg]
  rfl

/-- Witness for C10 at the concrete call with provider `"claude"` and
chunks `["hi"]`. -/
theorem parse_with_llm_invalid_provider_witness :
    parse_with_llm "claude" "k" exNetC5 ["hi"] "d" = .ok invalidProviderMsg :=
  parse_with_llm_invalid_provider "claude" "k" "d" ["hi"]
    (by refine ⟨?_, ?_, ?_⟩ <;> decide) (by decide) exNetC5

/-! ## Tabular reconstructor — `try_to_dataframe` (main.py)

```python
def try_to_dataframe(parsed_text):
    try:
        dfs = pd.read_html(parsed_text)
        if dfs:
            return dfs[0]
    except Exception:
        pass
    lines = [l.strip() for l in parsed_text.splitlines() if l.strip()]
    if not lines:
        return pd.DataFrame()
    header = lines[0]
    for sep in ['\t', '|', ',', ';']:
        if sep in header:
            try:
                df = pd.read_csv(io.StringIO("\n".join(lines)), sep=sep)
                return df
            except Exception:
                pass
    parts = [row.split() for row in lines]
    if len(parts) >= 2:
        lens = [len(p) for p in parts]
        if len(set(lens)) == 1 and lens[0] > 1:
            df = pd.DataFrame(parts[1:], columns=parts[0])
            return df
    return pd.DataFrame({"text": lines})
```

`pd.read_html` and `pd.read_csv` are external library calls; they are
modelled as oracle parameters returning `Option` (`none` = the call raised,
which the `except` clauses turn into fall-through).  A pandas `DataFrame` is
modelled as named columns plus rows of cells. -/

structure DataFrame where
  columns : List String
  rows : List (List String)
deriving DecidableEq, Repr

/-- A well-formed table: every row has one cell per column. -/
def DataFrame.WellFormed (df : DataFrame) : Prop :=
  ∀ r ∈ df.rows, r.length = df.columns.length

/-- `pd.DataFrame()` — the empty (zero-row, zero-column) table. -/
def emptyDataFrame : DataFrame := ⟨[], []⟩

/-- Python `row.split()`: split on runs of whitespace, no empty tokens. -/
def splitWsAux : List Char → List Char → List (List Char)
  | [], cur => if cur = [] then [] else [cur]
  | c :: rest, cur =>
    if isPyWs c then
      if cur = [] then splitWsAux rest [] else cur :: splitWsAux rest []
    else splitWsAux rest (cur ++ [c])

def pySplitWs (s : String) : List String :=
  (splitWsAux s.data []).map (fun l => ⟨l⟩)

/-- `[l.strip() for l in parsed_text.splitlines() if l.strip()]`. -/
def stripLines (s : String) : List String :=
  (linesOf s.data).map (fun l => ⟨l⟩)

/-- The delimiter candidates, in the source's priority order. -/
def csvSeps : List Char := ['\t', '|', ',', ';']

/-- The `for sep in ['\t', '|', ',', ';']` loop: try each candidate that
occurs in the header line; a raising parse (`none`) moves on to the next
candidate. -/
def tryDelimLoop (read_csv : Char → String → Option DataFrame)
    (header joined : String) : List Char → Option DataFrame
  | [] => none
  | sep :: seps =>
    if header.data.contains sep then
      match read_csv sep joined with
      | some df => some df
      | none => tryDelimLoop read_csv header joined seps
    else tryDelimLoop read_csv header joined seps

/-- Strategies 3 and 4: whitespace-split columns when at least two lines
split into the same column count `> 1`, else the single-column fallback. -/
def wsOrFallback (lines : List String) : DataFrame :=
  let parts := lines.map pySplitWs
  if 2 ≤ parts.length ∧ (∀ p ∈ parts, p.length = (parts.headD []).length) ∧
      1 < (parts.headD []).length then
    ⟨parts.headD [], parts.tail⟩
  else ⟨["text"], lines.map (fun l => [l])⟩

def try_to_dataframe (read_html : String → Option (List DataFrame))
    (read_csv : Char → String → Option DataFrame) (parsed_text : String) : DataFrame :=
  match read_html parsed_text with
  | some (df :: _) => df
  | _ =>
    match stripLines parsed_text with
    | [] => emptyDataFrame
    | header :: rest =>
      match tryDelimLoop read_csv header
          (String.intercalate "\n" (header :: rest)) csvSeps with
      | some df => df
      | none => wsOrFallback (header :: rest)

/-- The delimiter loop returns the first successful parse over the
candidates present in the header, in candidate order. -/
theorem tryDelimLoop_eq_findSome (read_csv : Char → String → Option DataFrame)
    (header joined : String) :
    ∀ seps : List Char,
      tryDelimLoop read_csv header joined seps =
        (seps.filter (fun sep => header.data.contains sep)).findSome?
          (fun sep => read_csv sep joined) := by
  intro seps
  induction seps with
  | nil => rfl
  | cons sep rest ih =>
    unfold tryDelimLoop
    by_cases h : header.data.contains sep
    · rw [if_pos h]
      rw [List.filter_cons_of_pos (by simpa using h), List.findSome?_cons]
      cases read_csv sep joined <;> simp [ih]
    · rw [if_neg h]
      rw [List.filter_cons_of_neg (by simpa using h)]
      exact ih

theorem tryDelimLoop_wf (read_csv : Char → String → Option DataFrame)
    (header joined : String)
    (hc : ∀ sep s df, read_csv sep s = some df → df.WellFormed) :
    ∀ (seps : List Char) (df : DataFrame),
      tryDelimLoop read_csv header joined seps = some df → df.WellFormed := by
  intro seps
  induction seps with
  | nil => intro df h; cases h
  | cons sep rest ih =>
    intro df h
    unfold tryDelimLoop at h
    by_cases hs : header.data.contains sep
    · rw [if_pos hs] at h
      cases hr : read_csv sep joined with
      | none => rw [hr] at h; exact ih df h
      | some df' =>
        rw [hr] at h
        cases h
        exact hc sep joined df hr
    · rw [if_neg hs] at h
      exact ih df h

theorem wsOrFallback_wf (lines : List String) : (wsOrFallback lines).WellFormed := by
  unfold wsOrFallback
  by_cases h : 2 ≤ (lines.map pySplitWs).length ∧
      (∀ p ∈ lines.map pySplitWs, p.length = ((lines.map pySplitWs).headD []).length) ∧
      1 < ((lines.map pySplitWs).headD []).length
  · rw [if_pos h]
    intro r hr
    exact h.2.1 r (List.mem_of_mem_tail hr)
  · rw [if_neg h]
    intro r hr
    obtain ⟨l, -, rfl⟩ := List.mem_map.mp hr
    rfl

/-- With a raising (or table-less) `read_html`, the reconstructor proceeds
to the line-based strategies. -/
theorem try_to_dataframe_html_fail (read_html : String → Option (List DataFrame))
    (read_csv : Char → String → Option DataFrame) (parsed_text : String)
    (hh : read_html parsed_text = none ∨ read_html parsed_text = some []) :
    try_to_dataframe read_html read_csv parsed_text =
      (match stripLines parsed_text with
       | [] => emptyDataFrame
       | header :: rest =>
         match tryDelimLoop read_csv header
             (String.intercalate "\n" (header :: rest)) csvSeps with
         | some df => df
         | none => wsOrFallback (header :: rest)) := by
  unfold try_to_dataframe
  rcases hh with hh | hh <;> rw [hh]

/-- **C6.** `try_to_dataframe` always returns a table and never raises (it is
total by construction — every library parse failure is an `Option` consumed
by fall-through): assuming the library oracles only ever return well-formed
tables (as pandas does), the result is well-formed whatever strategy
produced it, and empty or whitespace-only input (on which `pd.read_html`
raises) yields the zero-row empty table. -/
theorem try_to_dataframe_total (read_html : String → Option (List DataFrame))
    (read_csv : Char → String → Option DataFrame) (parsed_text : String)
    (hh : ∀ dfs, read_html parsed_text = some dfs → ∀ df ∈ dfs, df.WellFormed)
    (hc : ∀ sep s df, read_csv sep s = some df → df.WellFormed) :
    (try_to_dataframe read_html read_csv parsed_text).WellFormed ∧
    ((read_html parsed_text = none ∨ read_html parsed_text = some []) →
      stripLines parsed_text = [] →
      try_to_dataframe read_html read_csv parsed_text = emptyDataFrame) := by
  constructor
  · cases hhtml : read_html parsed_text with
    | some dfs =>
      cases dfs with
      | cons df dfrest =>
        have heq : try_to_dataframe read_html read_csv parsed_text = df := by
          unfold try_to_dataframe
          rw [hhtml]
        rw [heq]
        exact hh _ hhtml df (List.mem_cons_self df dfrest)
      | nil =>
        rw [try_to_dataframe_html_fail read_html read_csv parsed_text (Or.inr hhtml)]
        cases hlines : stripLines parsed_text with
        | nil => exact fun r hr => absurd hr (List.not_mem_nil r)
        | cons header rest =>
          cases hloop : tryDelimLoop read_csv header
              (String.intercalate "\n" (header :: rest)) csvSeps with
          | some df =>
            simp only [hloop]
            exact tryDelimLoop_wf read_csv _ _ hc csvSeps df hloop
          | none =>
            simp only [hloop]
            exact wsOrFallback_wf (header :: rest)
    | none =>
      rw [try_to_dataframe_html_fail read_html read_csv parsed_text (Or.inl hhtml)]
      cases hlines : stripLines parsed_text with
      | nil => exact fun r hr => absurd hr (List.not_mem_nil r)
      | cons header rest =>
        cases hloop : tryDelimLoop read_csv header
            (String.intercalate "\n" (header :: rest)) csvSeps with
        | some df =>
          simp only [hloop]
          exact tryDelimLoop_wf read_csv _ _ hc csvSeps df hloop
        | none =>
          simp only [hloop]
          exact wsOrFallback_wf (header :: rest)
  · intro hh2 h2
    rw [try_to_dataframe_html_fail read_html read_csv parsed_text hh2, h2]

/-- A `read_html` oracle that always raises (as pandas does when the text
holds no `<table>`), and a `read_csv` oracle modelling pandas on the
counterexample input `"a\tb|c\n1\t2\n3\t4\t5"`: the tab parse raises
(the header and the first data row both have 2 tab-fields, so no implicit
index is inferred, and the second data row's 3 fields then trip the strict
field-count check, "Expected 2 fields in line 3, saw 3"), while the pipe
parse succeeds (rows with fewer fields than the header are padded). -/
def rhNone : String → Option (List DataFrame) := fun _ => none

def pipeParsedDf : DataFrame := ⟨["a\tb", "c"], [["1\t2", ""], ["3\t4\t5", ""]]⟩

def rcPipeOnly : Char → String → Option DataFrame := fun sep _ =>
  if sep = '|' then some pipeParsedDf else none

/-- Witness for C6: on empty input (with the always-raising `read_html`), the
reconstructor returns the zero-row empty table, well-formedly. -/
theorem try_to_dataframe_total_witness :
    try_to_dataframe rhNone rcPipeOnly "" = emptyDataFrame :=
  (try_to_dataframe_total rhNone rcPipeOnly ""
      (fun dfs h => by simp [rhNone] at h)
      (fun sep s df h => by
        by_cases hs : sep = '|'
        · rw [rcPipeOnly, if_pos hs] at h
          cases h
          intro r hr
          rcases List.mem_cons.mp hr with rfl | hr'
          · rfl
          · rcases List.mem_cons.mp hr' with rfl | hr''
            · rfl
            · exact absurd hr'' (List.not_mem_nil r)
        · rw [rcPipeOnly, if_neg hs] at h
          cases h)).2
    (Or.inl rfl) rfl

/-- **C2 (amended).** Delimited-text strategy: only the first (non-empty,
stripped) line is inspected for delimiter candidates, tested in the fixed
order tab, pipe, comma, semicolon; each candidate present in the first line
is tried in turn over the whole line-set, and the result is the first
successful parse.  Only when every candidate present in the first line fails
(or none occurs there) does control fall through to the whitespace-column
strategy.  (The claim's "no further delimiter candidate is attempted" after
a raising parse is false — see the counterexample.) -/
theorem try_to_dataframe_delimiter_order (read_html : String → Option (List DataFrame))
    (read_csv : Char → String → Option DataFrame) (parsed_text : String)
    (header : String) (rest : List String)
    (hh : read_html parsed_text = none ∨ read_html parsed_text = some [])
    (hl : stripLines parsed_text = header :: rest) :
    (∀ df, (csvSeps.filter (fun sep => header.data.contains sep)).findSome?
        (fun sep => read_csv sep (String.intercalate "\n" (header :: rest))) = some df →
      try_to_dataframe read_html read_csv parsed_text = df) ∧
    ((csvSeps.filter (fun sep => header.data.contains sep)).findSome?
        (fun sep => read_csv sep (String.intercalate "\n" (header :: rest))) = none →
      try_to_dataframe read_html read_csv parsed_text = wsOrFallback (header :: rest)) := by
  have hmatch : try_to_dataframe read_html read_csv parsed_text =
      (match tryDelimLoop read_csv header
          (String.intercalate "\n" (header :: rest)) csvSeps with
       | some df => df
       | none => wsOrFallback (header :: rest)) := by
    unfold try_to_dataframe
    rcases hh with hh | hh <;> rw [hh] <;> dsimp only <;> rw [hl]
  have hloop := tryDelimLoop_eq_findSome read_csv header
    (String.intercalate "\n" (header :: rest)) csvSeps
  constructor
  · intro df hdf
    rw [hmatch, hloop, hdf]
  · intro hnone
    rw [hmatch, hloop, hnone]

/-- Witness for C2 at concrete oracles and input: the first line
`"a,b"` contains only the comma candidate; the comma parse succeeds and its
table is returned. -/
def rcCommaOnly : Char → String → Option DataFrame := fun sep _ =>
  if sep = ',' then some ⟨["a", "b"], [["1", "2"]]⟩ else none

theorem try_to_dataframe_delimiter_order_witness :
    try_to_dataframe rhNone rcCommaOnly "a,b\n1,2" = ⟨["a", "b"], [["1", "2"]]⟩ :=
  (try_to_dataframe_delimiter_order rhNone rcCommaOnly "a,b\n1,2" "a,b" ["1,2"]
    (Or.inl rfl) rfl).1 ⟨["a", "b"], [["1", "2"]]⟩ rfl

/-- Counterexample to C2 as stated: for input `"a\tb|c\n1\t2\n3\t4\t5"`
the first line contains both tab and pipe; the tab parse raises
(`rcPipeOnly '\t' _ = none` — the third line has more tab-fields than the
header while the first data row matches it, so the strict parser errors on
line 3), and the code then attempts the **next** delimiter candidate, pipe,
whose parse succeeds and is returned — it does not fall through to the
whitespace-column strategy, whose result on these lines would be the
single-column fallback table. -/
theorem try_to_dataframe_delim_fallthrough_counterexample :
    try_to_dataframe rhNone rcPipeOnly "a\tb|c\n1\t2\n3\t4\t5" = pipeParsedDf ∧
    pipeParsedDf ≠ wsOrFallback ["a\tb|c", "1\t2", "3\t4\t5"] ∧
    wsOrFallback ["a\tb|c", "1\t2", "3\t4\t5"] =
      ⟨["text"], [["a\tb|c"], ["1\t2"], ["3\t4\t5"]]⟩ := by
  refine ⟨by decide, by decide, by decide⟩

/-! ## Content normalizer — `clean_body_content` (scrape.py)

```python
def clean_body_content(body_content):
    soup = BeautifulSoup(body_content, "html.parser")
    for tag in soup(["script", "style"]):
        tag.extract()
    cleaned = soup.get_text(separator="\n")
    cleaned = "\n".join(line.strip() for line in cleaned.splitlines() if line.strip())
    return cleaned
```

`BeautifulSoup(..., "html.parser")` followed by script/style extraction and
`get_text(separator="\n")` is an external-library pipeline; it is modelled
here on the HTML fragment the claims exercise: `get_text("\n")` joins the
document's maximal text runs with `"\n"`, where a text run is the decoded
character data between tags (`html.parser` runs with `convert_charrefs=True`,
so character references are decoded into the surrounding run and are *not*
re-parsed as markup), tags themselves produce no text, the raw content of
`script`/`style` elements is removed (their content runs to the matching
case-insensitive close tag), comments (`<!--...-->`), declarations and
processing instructions produce no text, and a `<` that does not open a
tag construct is literal text.  Named references `&lt; &gt; &amp; &quot;`
are decoded; other ampersands are literal. -/

def isAsciiAlpha (c : Char) : Bool :=
  ('a' ≤ c && c ≤ 'z') || ('A' ≤ c && c ≤ 'Z')

def isNameChar (c : Char) : Bool := isAsciiAlpha c || c.isDigit

/-- Drop everything up to and including the next `'>'` (to the end if none). -/
def dropThroughGt : List Char → List Char
  | [] => []
  | c :: rest => if c = '>' then rest else dropThroughGt rest

def lowerList (cs : List Char) : List Char := cs.map Char.toLower

/-- Drop everything up to and including the first case-insensitive occurrence
of `needle` (given in lowercase); `none` if it never occurs. -/
def dropThroughSubCI (needle : List Char) : List Char → Option (List Char)
  | [] => none
  | c :: rest =>
    if lowerList ((c :: rest).take needle.length) = needle then
      some ((c :: rest).drop needle.length)
    else dropThroughSubCI needle rest

/-- The text runs of the parsed markup, in document order: `acc` is the
current run, `out` the finished runs.  The fuel argument only serves
structural recursion; callers pass the input length, which every step
strictly decreases, so the fuel-exhausted case is unreachable (it
conservatively flushes the remainder as text). -/
def scanNodes : Nat → List Char → List Char → List (List Char) → List (List Char)
  | 0, cs, acc, out => if acc ++ cs = [] then out else out ++ [acc ++ cs]
  | _ + 1, [], acc, out => if acc = [] then out else out ++ [acc]
  | fuel + 1, c :: rest, acc, out =>
    if c = '<' then
      match rest with
      | [] => scanNodes fuel [] (acc ++ ['<']) out
      | c₂ :: rest₂ =>
        if isAsciiAlpha c₂ then
          -- start tag; script/style switch the tokenizer to raw-text mode
          let name := lowerList ((c₂ :: rest₂).takeWhile isNameChar)
          let afterTag := dropThroughGt rest
          let out' := if acc = [] then out else out ++ [acc]
          if name = "script".data || name = "style".data then
            match dropThroughSubCI ('<' :: '/' :: name) afterTag with
            | some rem => scanNodes fuel (dropThroughGt rem) [] out'
            | none => out'
          else scanNodes fuel afterTag [] out'
        else if c₂ = '/' then
          let out' := if acc = [] then out else out ++ [acc]
          scanNodes fuel (dropThroughGt rest) [] out'
        else if c₂ = '!' || c₂ = '?' then
          let out' := if acc = [] then out else out ++ [acc]
          if lowerList (rest₂.take 2) = ['-', '-'] then
            match dropThroughSubCI ['-', '-', '>'] rest₂ with
            | some rem => scanNodes fuel rem [] out'
            | none => out'
          else scanNodes fuel (dropThroughGt rest) [] out'
        else scanNodes fuel rest (acc ++ ['<']) out
    else if c = '&' then
      if "lt;".data.isPrefixOf rest then scanNodes fuel (rest.drop 3) (acc ++ ['<']) out
      else if "gt;".data.isPrefixOf rest then scanNodes fuel (rest.drop 3) (acc ++ ['>']) out
      else if "amp;".data.isPrefixOf rest then scanNodes fuel (rest.drop 4) (acc ++ ['&']) out
      else if "quot;".data.isPrefixOf rest then
        scanNodes fuel (rest.drop 5) (acc ++ ['"']) out
      else scanNodes fuel rest (acc ++ ['&']) out
    else scanNodes fuel rest (acc ++ [c]) out

/-- `soup.get_text(separator="\n")` after script/style extraction. -/
def get_text_nl (cs : List Char) : List Char :=
  joinNl (scanNodes cs.length cs [] [])

/-- The final line normalization:
`"\n".join(line.strip() for line in cleaned.splitlines() if line.strip())`. -/
def normalizeL (cs : List Char) : List Char := joinNl (linesOf cs)

def clean_body_content (body_content : String) : String :=
  ⟨normalizeL (get_text_nl body_content.data)⟩

theorem dropWhile_dropWhile (p : Char → Bool) :
    ∀ l : List Char, (l.dropWhile p).dropWhile p = l.dropWhile p := by
  intro l
  induction l with
  | nil => rfl
  | cons c l ih =>
    rw [List.dropWhile_cons]
    by_cases h : p c
    · rw [if_pos h]; exact ih
    · rw [if_neg h, List.dropWhile_cons, if_neg h]

theorem dropWhile_eq_self_of_prefix (p : Char → Bool) {l l' : List Char}
    (h : l.dropWhile p = l) (hp : l' <+: l) : l'.dropWhile p = l' := by
  cases l' with
  | nil => rfl
  | cons a t =>
    obtain ⟨s, hs⟩ := hp
    have hl : l = a :: (t ++ s) := by rw [← hs]; rfl
    have hpa : ¬ p a := by
      intro hpa
      rw [hl, List.dropWhile_cons, if_pos hpa] at h
      have hlen := congrArg List.length h
      rw [List.length_cons] at hlen
      have hle : (List.dropWhile p (t ++ s)).length ≤ (t ++ s).length :=
        List.Sublist.length_le (List.dropWhile_sublist p)
      omega
    rw [List.dropWhile_cons, if_neg hpa]

/-- `l` carries no leading and no trailing Python whitespace. -/
def IsStrippedL (cs : List Char) : Prop :=
  cs.dropWhile isPyWs = cs ∧ cs.reverse.dropWhile isPyWs = cs.reverse

theorem stripChars_isStripped (cs : List Char) : IsStrippedL (stripChars cs) := by
  unfold stripChars IsStrippedL
  constructor
  · apply dropWhile_eq_self_of_prefix isPyWs (dropWhile_dropWhile isPyWs cs)
    have hsuf : ((cs.dropWhile isPyWs).reverse.dropWhile isPyWs) <:+
        (cs.dropWhile isPyWs).reverse := List.dropWhile_suffix isPyWs
    have := List.reverse_prefix.mpr hsuf
    rwa [List.reverse_reverse] at this
  · rw [List.reverse_reverse]
    exact dropWhile_dropWhile isPyWs _

theorem stripChars_eq_self {cs : List Char} (h : IsStrippedL cs) : stripChars cs = cs := by
  unfold stripChars
  rw [h.1, h.2, List.reverse_reverse]

theorem mem_of_mem_stripChars {c : Char} {cs : List Char} (h : c ∈ stripChars cs) :
    c ∈ cs := by
  unfold stripChars at h
  rw [List.mem_reverse] at h
  have h1 := List.Sublist.subset (List.dropWhile_sublist isPyWs) h
  rw [List.mem_reverse] at h1
  exact List.Sublist.subset (List.dropWhile_sublist isPyWs) h1

theorem splitOnNl_ne_nil : ∀ cs : List Char, splitOnNl cs ≠ [] := by
  intro cs
  induction cs with
  | nil => exact List.cons_ne_nil _ _
  | cons c rest ih =>
    unfold splitOnNl
    by_cases h : c = '\n'
    · rw [if_pos h]; exact List.cons_ne_nil _ _
    · rw [if_neg h]
      cases hr : splitOnNl rest with
      | nil => exact absurd hr ih
      | cons l ls => exact List.cons_ne_nil _ _

theorem no_nl_splitOnNl : ∀ (cs : List Char), ∀ l ∈ splitOnNl cs, '\n' ∉ l := by
  intro cs
  induction cs with
  | nil =>
    intro l hl
    simp only [splitOnNl, List.mem_singleton] at hl
    simp [hl]
  | cons c rest ih =>
    intro l hl
    unfold splitOnNl at hl
    by_cases h : c = '\n'
    · rw [if_pos h] at hl
      rcases List.mem_cons.mp hl with rfl | hl
      · simp
      · exact ih l hl
    · rw [if_neg h] at hl
      cases hr : splitOnNl rest with
      | nil => exact absurd hr (splitOnNl_ne_nil rest)
      | cons m ms =>
        rw [hr] at hl
        rcases List.mem_cons.mp hl with rfl | hl
        · intro hmem
          rcases List.mem_cons.mp hmem with hc | hc
          · exact h hc.symm
          · exact ih m (hr ▸ List.mem_cons_self m ms) hc
        · exact ih l (hr ▸ List.mem_cons_of_mem m hl)

theorem splitOnNl_append {l : List Char} (hl : '\n' ∉ l) :
    ∀ (cs h : List Char) (t : List (List Char)), splitOnNl cs = h :: t →
      splitOnNl (l ++ cs) = (l ++ h) :: t := by
  induction l with
  | nil => intro cs h t hcs; simpa using hcs
  | cons a l' ih =>
    intro cs h t hcs
    have ha : a ≠ '\n' := fun hc => hl (hc ▸ List.mem_cons_self a l')
    have hl' : '\n' ∉ l' := fun hc => hl (List.mem_cons_of_mem a hc)
    show splitOnNl (a :: (l' ++ cs)) = ((a :: l') ++ h) :: t
    unfold splitOnNl
    rw [if_neg (fun hc => ha hc)]
    rw [ih hl' cs h t hcs]
    rfl

theorem splitOnNl_joinNl : ∀ L : List (List Char), L ≠ [] →
    (∀ l ∈ L, '\n' ∉ l) → splitOnNl (joinNl L) = L := by
  intro L
  induction L with
  | nil => intro h; exact absurd rfl h
  | cons l L' ih =>
    intro _ hnl
    cases L' with
    | nil =>
      have := splitOnNl_append (hnl l (List.mem_cons_self l [])) [] [] []
        (by rfl)
      simpa using this
    | cons l₂ L'' =>
      have hrest : splitOnNl (joinNl (l₂ :: L'')) = l₂ :: L'' :=
        ih (List.cons_ne_nil _ _) (fun x hx => hnl x (List.mem_cons_of_mem l hx))
      have hnlcons : splitOnNl ('\n' :: joinNl (l₂ :: L'')) = [] :: l₂ :: L'' := by
        unfold splitOnNl
        rw [if_pos rfl, hrest]
      have := splitOnNl_append (hnl l (List.mem_cons_self l _))
        ('\n' :: joinNl (l₂ :: L'')) [] (l₂ :: L'') hnlcons
      show splitOnNl (l ++ '\n' :: joinNl (l₂ :: L'')) = l :: l₂ :: L''
      rw [this]
      simp

theorem getLast?_mem : ∀ (L : List (List Char)) (a : List Char),
    L.getLast? = some a → a ∈ L := by
  intro L
  induction L with
  | nil => intro a h; cases h
  | cons x t ih =>
    intro a h
    cases t with
    | nil =>
      simp only [List.getLast?_singleton, Option.some_inj] at h
      simp [h]
    | cons y t' =>
      rw [List.getLast?_cons_cons] at h
      exact List.mem_cons_of_mem x (ih a h)

theorem pySplitlines_joinNl {L : List (List Char)} (h0 : L ≠ [])
    (hnl : ∀ l ∈ L, '\n' ∉ l) (hne : ∀ l ∈ L, l ≠ []) :
    pySplitlines (joinNl L) = L := by
  unfold pySplitlines
  rw [splitOnNl_joinNl L h0 hnl]
  have : ¬ L.getLast? = some [] := by
    intro hc
    exact hne [] (getLast?_mem L [] hc) rfl
  rw [if_neg this]

theorem mem_pySplitlines {cs : List Char} {l : List Char} (h : l ∈ pySplitlines cs) :
    l ∈ splitOnNl cs := by
  unfold pySplitlines at h
  by_cases hc : (splitOnNl cs).getLast? = some []
  · rw [if_pos hc] at h
    exact (List.dropLast_sublist _).subset h
  · rwa [if_neg hc] at h

theorem linesOf_elem_props {cs l : List Char} (h : l ∈ linesOf cs) :
    IsStrippedL l ∧ l ≠ [] ∧ '\n' ∉ l := by
  unfold linesOf at h
  have hmem := List.mem_filter.mp h
  obtain ⟨l₀, hl₀, rfl⟩ := List.mem_map.mp hmem.1
  refine ⟨stripChars_isStripped l₀, by simpa using hmem.2, ?_⟩
  intro hmemnl
  exact no_nl_splitOnNl cs l₀ (mem_pySplitlines hl₀) (mem_of_mem_stripChars hmemnl)

theorem linesOf_joinNl_linesOf (cs : List Char) :
    linesOf (joinNl (linesOf cs)) = linesOf cs := by
  cases hL : linesOf cs with
  | nil => rfl
  | cons l L' =>
    have hprops : ∀ x ∈ l :: L', IsStrippedL x ∧ x ≠ [] ∧ '\n' ∉ x :=
      fun x hx => linesOf_elem_props (hL ▸ hx)
    show (((pySplitlines (joinNl (l :: L'))).map stripChars).filter (· ≠ [])) = l :: L'
    rw [pySplitlines_joinNl (List.cons_ne_nil _ _)
      (fun x hx => (hprops x hx).2.2) (fun x hx => (hprops x hx).2.1)]
    rw [List.map_congr_left (fun x hx => stripChars_eq_self (hprops x hx).1)]
    rw [show List.map (fun x : List Char => x) (l :: L') = l :: L' from List.map_id' _]
    apply List.filter_eq_self.mpr
    intro a ha
    simpa using (hprops a ha).2.1

/-- The final line normalization is idempotent. -/
theorem normalizeL_idem (cs : List Char) :
    normalizeL (normalizeL cs) = normalizeL cs := by
  unfold normalizeL
  rw [linesOf_joinNl_linesOf]

/-- On markup-free text (no `'<'`, no `'&'`), the parser produces the text
itself as the single text run. -/
theorem scanNodes_text :
    ∀ (fuel : Nat) (cs acc : List Char) (out : List (List Char)),
      (∀ c ∈ cs, c ≠ '<' ∧ c ≠ '&') →
      scanNodes fuel cs acc out =
        if acc ++ cs = [] then out else out ++ [acc ++ cs] := by
  intro fuel
  induction fuel with
  | zero => intro cs acc out _; rfl
  | succ fuel ih =>
    intro cs acc out h
    cases cs with
    | nil =>
      show (if acc = [] then out else out ++ [acc]) = _
      simp
    | cons c rest =>
      have hc := h c (List.mem_cons_self c rest)
      have hrest : ∀ x ∈ rest, x ≠ '<' ∧ x ≠ '&' :=
        fun x hx => h x (List.mem_cons_of_mem c hx)
      show (if c = '<' then _ else if c = '&' then _
        else scanNodes fuel rest (acc ++ [c]) out) = _
      rw [if_neg hc.1, if_neg hc.2, ih rest (acc ++ [c]) out hrest]
      have hne₁ : (acc ++ [c]) ++ rest ≠ [] := by simp
      have hne₂ : acc ++ c :: rest ≠ [] := by simp
      rw [if_neg hne₁, if_neg hne₂]
      simp

theorem get_text_nl_text {cs : List Char} (h : ∀ c ∈ cs, c ≠ '<' ∧ c ≠ '&') :
    get_text_nl cs = cs := by
  unfold get_text_nl
  rw [scanNodes_text cs.length cs [] [] h]
  cases cs with
  | nil => rfl
  | cons c rest =>
    rw [if_neg (by simp)]
    rfl

/-- **C8 (amended).** `clean_body_content` is idempotent on every input whose
cleaned output contains no markup-significant character (`'<'` or `'&'`):
re-running it on such output changes nothing.  Unconditional idempotence is
false — entity-encoded markup in the input decodes into the first output and
is re-parsed as markup by the second pass (see the counterexample). -/
theorem clean_body_content_idem (s : String)
    (h : ∀ c ∈ (clean_body_content s).data, c ≠ '<' ∧ c ≠ '&') :
    clean_body_content (clean_body_content s) = clean_body_content s := by
  show (⟨normalizeL (get_text_nl (clean_body_content s).data)⟩ : String) =
    clean_body_content s
  rw [get_text_nl_text h]
  show (⟨normalizeL (normalizeL (get_text_nl s.data))⟩ : String) = clean_body_content s
  rw [normalizeL_idem]
  rfl

/-- Witness for C8: a concrete body whose cleaned output `"hello\nworld"` is
markup-free, so the second pass fixes it. -/
theorem clean_body_content_idem_witness :
    clean_body_content (clean_body_content "<p> hello </p>\n<p>world</p>") =
      clean_body_content "<p> hello </p>\n<p>world</p>" :=
  clean_body_content_idem "<p> hello </p>\n<p>world</p>" (by decide)

/-- Counterexample to C8 as stated: for the body
`"&lt;script&gt;x&lt;/script&gt;"` the first pass decodes the entities to
the text `"<script>x</script>"` (not markup — character references are not
re-parsed); the second pass parses that text as a real script element and
removes it, yielding `""`.  So `clean(clean(x)) ≠ clean(x)`. -/
theorem clean_body_content_not_idem_counterexample :
    clean_body_content "&lt;script&gt;x&lt;/script&gt;" = "<script>x</script>" ∧
    clean_body_content (clean_body_content "&lt;script&gt;x&lt;/script&gt;") = "" ∧
    clean_body_content (clean_body_content "&lt;script&gt;x&lt;/script&gt;") ≠
      clean_body_content "&lt;script&gt;x&lt;/script&gt;" :=
  ⟨by decide, by decide, by decide⟩

end WebscrapperBuddy
